import Mathlib

/-!
Shallow embedding of the notification core of `main.py` (prayer-time
Telegram bot): the dedup-ledger pruning, the minute-matching delivery
loops of `check_prayer_times`, `send_daily_prayer_schedule` and
`send_daily_quote`, the TTL cache discipline of `parse_prayer_times` and
`get_daily_quote`, and the subscriber-record update path
`set_city` → `update_user`.

Modelling conventions:
* machine-external effects (HTML fetch results, Telegram send outcomes,
  the wall clock as seen through `strftime`) are explicit parameters;
* Python exceptions are `Except String` values; an exception caught by a
  `try`/`except` in the source is absorbed at the same place here;
* the dedup dictionaries (`sent_notifications`, `sent_daily_schedules`)
  are `List String` of keys (the stored value is always `True`);
* times and dedup keys stay `String`s, split and parsed exactly as the
  source does.
-/

namespace BotUmma

/-- Python `str.split(sep)` for a one-character separator: splits on every
occurrence, yielding `n+1` pieces for `n` separators (so `"".split` is
`[""]`). Defined on the character list of the string. -/
def pySplitAux (sep : Char) : List Char → List String
  | [] => [""]
  | c :: rest =>
    let r := pySplitAux sep rest
    if c = sep then "" :: r
    else
      match r with
      | [] => [String.mk [c]]
      | h :: t => String.mk (c :: h.data) :: t

/-- Python `s.split(sep)` for a one-character separator. -/
def pySplit (sep : Char) (s : String) : List String :=
  pySplitAux sep s.data

theorem pySplitAux_ne_nil (sep : Char) (cs : List Char) : pySplitAux sep cs ≠ [] := by
  induction cs with
  | nil => simp [pySplitAux]
  | cons c rest ih =>
    simp only [pySplitAux]
    split
    · simp
    · match h : pySplitAux sep rest with
      | [] => simp
      | h' :: t => simp

/-- The first piece of a split never contains the separator. -/
theorem pySplitAux_head_no_sep (sep : Char) (cs : List Char) :
    sep ∉ ((pySplitAux sep cs).headD "").data := by
  induction cs with
  | nil => simp [pySplitAux]
  | cons c rest ih =>
    simp only [pySplitAux]
    by_cases hc : c = sep
    · simp [hc]
    · simp only [if_neg hc]
      match hsplit : pySplitAux sep rest with
      | [] => exact absurd hsplit (pySplitAux_ne_nil sep rest)
      | h' :: t =>
        rw [hsplit] at ih
        simp only [List.headD_cons] at ih ⊢
        change sep ∉ c :: h'.data
        intro hmem
        rcases List.mem_cons.mp hmem with h1 | h1
        · exact hc h1.symm
        · exact ih h1

theorem pySplit_head_no_sep (sep : Char) (s : String) :
    sep ∉ ((pySplit sep s).headD "").data :=
  pySplitAux_head_no_sep sep s.data

/-- Python `int(t)` on the digit strings occurring in schedule times and
key dates: all-digit, non-empty strings parse to their value; anything
else raises `ValueError` (modelled `none`). -/
def parseDigits (s : String) : Option Nat :=
  if s.data ≠ [] ∧ s.data.all (·.isDigit) then
    some (s.data.foldl (fun acc c => 10 * acc + (c.toNat - '0'.toNat)) 0)
  else none

/-- Number of days of a month, as `datetime.strptime` validates them. -/
def daysInMonth (y m : Nat) : Nat :=
  if m = 2 then
    if y % 4 = 0 ∧ (y % 100 ≠ 0 ∨ y % 400 = 0) then 29 else 28
  else if m = 4 ∨ m = 6 ∨ m = 9 ∨ m = 11 then 30
  else 31

/-- `datetime.datetime.strptime(s, '%Y-%m-%d')`, reduced to success or
`ValueError`: three dash-separated digit groups with a calendar-valid
month and day. -/
def parseYMD (s : String) : Option (Nat × Nat × Nat) :=
  match pySplit '-' s with
  | [ys, ms, ds] =>
    match parseDigits ys, parseDigits ms, parseDigits ds with
    | some y, some m, some d =>
      if 1 ≤ m ∧ m ≤ 12 ∧ 1 ≤ d ∧ d ≤ daysInMonth y m then some (y, m, d) else none
    | _, _, _ => none
  | _ => none

/-- The generator sum over `zip([60, 1], parts)`: every drawn part must
parse as an int or the whole sum raises. -/
def sumTimeParts : List (Nat × String) → Option Nat
  | [] => some 0
  | (x, t) :: rest =>
    match parseDigits t, sumTimeParts rest with
    | some n, some r => some (x * n + r)
    | _, _ => none

/-- `sum(x * int(t) for x, t in zip([60, 1], time.split(":")))`
(lines 254-255, 524-525): `none` models the `ValueError` raised by
`int` on a non-digit part. -/
def timeToMinutes (time : String) : Option Nat :=
  sumTimeParts (List.zip [60, 1] (pySplit ':' time))

/-- `f"{today.strftime('%Y-%m-%d')}-{prayer}-{user['chat_id']}"` (line 528). -/
def notifKey (today prayer : String) (chatId : Nat) : String :=
  today ++ "-" ++ prayer ++ "-" ++ toString chatId

/-- `f"{today.strftime('%Y-%m-%d')}-{user['chat_id']}"` (line 258). -/
def digestKey (today : String) (chatId : Nat) : String :=
  today ++ "-" ++ toString chatId

/-- Per-key decision of the `check_prayer_times` prune (lines 496-505):
`date_part = k.split('-')[0]`; a structural `YYYY-MM-DD` shape check;
on shape match, `strptime` (its `ValueError` is caught and the key
dropped), then a `>` comparison of the parsed naive datetime against the
timezone-aware `cutoff_date`, which in Python 3 raises `TypeError`
regardless of the values (and `except ValueError` would not catch it). -/
def notifKeyKept (k : String) : Except String Bool :=
  let datePart := (pySplit '-' k).headD ""
  if datePart.data.length = 10 ∧ datePart.data.get? 4 = some '-' ∧
      datePart.data.get? 7 = some '-' then
    match parseYMD datePart with
    | some _ => .error "TypeError: cannot compare naive and aware datetimes"
    | none => .ok false
  else
    .ok false

/-- The prune loop of `check_prayer_times` (lines 495-506): rebuilds the
ledger keeping the keys `notifKeyKept` approves; an uncaught exception
aborts the whole tick before `sent_notifications` is reassigned. -/
def pruneNotifications : List String → Except String (List String)
  | [] => .ok []
  | k :: rest => do
    let keep ← notifKeyKept k
    let r ← pruneNotifications rest
    pure (if keep then k :: r else r)

/-- Per-key decision of the `send_daily_prayer_schedule` prune (lines
233-236): `strptime(k.split('-')[0], '%Y-%m-%d')` with no surrounding
`try`, so a parse failure is an uncaught `ValueError`; a successful parse
would reach the naive-vs-aware `>` comparison, an uncaught `TypeError`. -/
def dailyKeyKept (k : String) : Except String Bool :=
  match parseYMD ((pySplit '-' k).headD "") with
  | none => .error "ValueError: time data does not match format"
  | some _ => .error "TypeError: cannot compare naive and aware datetimes"

/-- The dict-comprehension prune of `send_daily_prayer_schedule`
(lines 233-236). -/
def pruneDailySchedules : List String → Except String (List String)
  | [] => .ok []
  | k :: rest => do
    let keep ← dailyKeyKept k
    let r ← pruneDailySchedules rest
    pure (if keep then k :: r else r)

/-- `k.split('-')[0]` can never look like `YYYY-MM-DD` (it contains no
dash), so every key — well-formed or not — takes the `else` branch of the
shape check and is dropped with a "malformed key" warning. -/
theorem notifKeyKept_eq_ok_false (k : String) : notifKeyKept k = .ok false := by
  unfold notifKeyKept
  have hno : '-' ∉ ((pySplit '-' k).headD "").data := pySplit_head_no_sep '-' k
  have h4 : ((pySplit '-' k).headD "").data.get? 4 ≠ some '-' := by
    intro h
    exact hno (List.get?_mem h)
  rw [if_neg]
  intro hcond
  exact h4 hcond.2.1

/-- The `check_prayer_times` prune never raises and always produces the
empty ledger. -/
theorem pruneNotifications_eq (ledger : List String) :
    pruneNotifications ledger = .ok [] := by
  induction ledger with
  | nil => rfl
  | cons k rest ih =>
    simp only [pruneNotifications, notifKeyKept_eq_ok_false, ih]
    rfl

/-- Every key makes the `send_daily_prayer_schedule` prune raise. -/
theorem dailyKeyKept_error (k : String) : ∃ e, dailyKeyKept k = .error e := by
  unfold dailyKeyKept
  match parseYMD ((pySplit '-' k).headD "") with
  | none => exact ⟨_, rfl⟩
  | some _ => exact ⟨_, rfl⟩

/-- On any non-empty ledger the `send_daily_prayer_schedule` prune raises
an uncaught exception. -/
theorem pruneDailySchedules_error (k : String) (rest : List String) :
    ∃ e, pruneDailySchedules (k :: rest) = .error e := by
  obtain ⟨e, he⟩ := dailyKeyKept_error k
  exact ⟨e, by simp only [pruneDailySchedules, he]; rfl⟩

/-- A subscribed user as seen by one tick of `check_prayer_times`: the
`chat_id`, the `strftime('%Y-%m-%d')` of `now.date()` in the user's
timezone, the `strftime('%H:%M')` local time, and the schedule
`parse_prayer_times` returned for the user's city. -/
structure PUser where
  chatId : Nat
  today : String
  currentTime : String
  schedule : List (String × String)
deriving DecidableEq, Repr

/-- One successful `context.bot.send_message` of a prayer notification:
the recipient, the prayer named in the text, and the dedup key written
right after the send. -/
structure Sent where
  chatId : Nat
  prayer : String
  key : String
deriving DecidableEq, Repr

/-- The `for prayer, time in schedule.items()` loop of
`check_prayer_times` (lines 523-536) for one user. `sendOk` tells
whether `send_message` succeeds for a given `(chat_id, prayer)`; a raise
(`sendOk = false`), like a `ValueError` from `int`, is caught by the
per-user `except` (line 537), aborting the rest of this user's prayers
but keeping the ledger as already mutated. Returns the updated ledger
and the deliveries made, in order. -/
def processPrayers (sendOk : Nat → String → Bool) (u : PUser) :
    List (String × String) → List String → List String × List Sent
  | [], ledger => (ledger, [])
  | (prayer, time) :: rest, ledger =>
    match timeToMinutes time, timeToMinutes u.currentTime with
    | some pm, some cm =>
      let nid := notifKey u.today prayer u.chatId
      if (pm : Int) - (cm : Int) = 0 ∧ nid ∉ ledger then
        if sendOk u.chatId prayer then
          ((processPrayers sendOk u rest (nid :: ledger)).1,
           ⟨u.chatId, prayer, nid⟩ :: (processPrayers sendOk u rest (nid :: ledger)).2)
        else (ledger, [])
      else processPrayers sendOk u rest ledger
    | _, _ => (ledger, [])

/-- One user's body inside the `for user in users` loop of
`check_prayer_times` (lines 508-538): an empty schedule means
`continue` (lines 518-520). -/
def process_user (sendOk : Nat → String → Bool) (ledger : List String) (u : PUser) :
    List String × List Sent :=
  if u.schedule = [] then (ledger, [])
  else processPrayers sendOk u u.schedule ledger

/-- The full `for user in users` loop: the ledger is threaded through,
deliveries are concatenated, and a per-user failure never stops the
loop. -/
def processUsers (sendOk : Nat → String → Bool) :
    List PUser → List String → List String × List Sent
  | [], ledger => (ledger, [])
  | u :: rest, ledger =>
    ((processUsers sendOk rest (process_user sendOk ledger u).1).1,
     (process_user sendOk ledger u).2
       ++ (processUsers sendOk rest (process_user sendOk ledger u).1).2)

/-- One tick of `check_prayer_times` (lines 484-538): with no subscribed
users the function returns before pruning; otherwise the prune runs
(an uncaught exception there would abort the tick before
`sent_notifications` is reassigned), then all users are processed. -/
def check_prayer_tick (sendOk : Nat → String → Bool) (users : List PUser)
    (ledger : List String) : Except String (List String × List Sent) :=
  if users = [] then .ok (ledger, [])
  else
    match pruneNotifications ledger with
    | .error e => .error e
    | .ok pruned => .ok (processUsers sendOk users pruned)

/-- A sequence of `check_prayer_times` ticks against the process-global
`sent_notifications`: a tick that raises leaves the ledger untouched and
delivers nothing. -/
def runCheckTicks (sendOk : Nat → String → Bool) :
    List (List PUser) → List String → List String × List Sent
  | [], ledger => (ledger, [])
  | users :: rest, ledger =>
    match check_prayer_tick sendOk users ledger with
    | .ok r =>
      ((runCheckTicks sendOk rest r.1).1, r.2 ++ (runCheckTicks sendOk rest r.1).2)
    | .error _ => runCheckTicks sendOk rest ledger

/-- A subscribed user as seen by one tick of
`send_daily_prayer_schedule`: `chat_id`, local `strftime('%H:%M')` time,
and the schedule returned for the user's city. -/
structure DUser where
  chatId : Nat
  currentTime : String
  schedule : List (String × String)
deriving DecidableEq, Repr

/-- Python `dict.get(k)` on the schedule dict. -/
def dictGet (d : List (String × String)) (k : String) : Option String :=
  (d.find? (fun p => p.1 == k)).map (·.2)

/-- One user's body inside `send_daily_prayer_schedule` (lines 238-271):
empty schedule or falsy (`None`/`""`) Fajr time means `continue`; the
digest is sent when `fajr_minutes - current_minutes == 10` and the
dedup key is absent, and the key is written only after a successful
send (a raise is caught by the per-user `except`). Returns the updated
ledger and the chat ids that received the digest. -/
def processDigestUser (sendOk : Nat → Bool) (today : String) (ledger : List String)
    (u : DUser) : List String × List Nat :=
  if u.schedule = [] then (ledger, [])
  else
    match dictGet u.schedule "Фаджр" with
    | none => (ledger, [])
    | some fajrTime =>
      if fajrTime = "" then (ledger, [])
      else
        match timeToMinutes fajrTime, timeToMinutes u.currentTime with
        | some fm, some cm =>
          if (fm : Int) - (cm : Int) = 10 ∧ digestKey today u.chatId ∉ ledger then
            if sendOk u.chatId then (digestKey today u.chatId :: ledger, [u.chatId])
            else (ledger, [])
          else (ledger, [])
        | _, _ => (ledger, [])

/-- The `for user in users` loop of `send_daily_prayer_schedule`. -/
def processDigestUsers (sendOk : Nat → Bool) (today : String) :
    List DUser → List String → List String × List Nat
  | [], ledger => (ledger, [])
  | u :: rest, ledger =>
    ((processDigestUsers sendOk today rest (processDigestUser sendOk today ledger u).1).1,
     (processDigestUser sendOk today ledger u).2
       ++ (processDigestUsers sendOk today rest (processDigestUser sendOk today ledger u).1).2)

/-- One tick of `send_daily_prayer_schedule` (lines 221-271): returns
early with no users, then prunes `sent_daily_schedules` (an uncaught
exception aborts the tick before the global is reassigned), then
processes all users. -/
def daily_schedule_tick (sendOk : Nat → Bool) (today : String) (users : List DUser)
    (ledger : List String) : Except String (List String × List Nat) :=
  if users = [] then .ok (ledger, [])
  else
    match pruneDailySchedules ledger with
    | .error e => .error e
    | .ok pruned => .ok (processDigestUsers sendOk today users pruned)

/-- The inputs one `send_daily_prayer_schedule` tick reads from the
outside world. -/
structure DailyTickIn where
  today : String
  sendOk : Nat → Bool
  users : List DUser

/-- A sequence of digest ticks against the process-global
`sent_daily_schedules` (reset to empty at process start): a raising tick
leaves the ledger untouched and sends nothing. Deliveries are tagged
with the tick's date. -/
def runDailyTicks : List DailyTickIn → List String → List String × List (String × Nat)
  | [], ledger => (ledger, [])
  | t :: rest, ledger =>
    match daily_schedule_tick t.sendOk t.today t.users ledger with
    | .ok r =>
      ((runDailyTicks rest r.1).1,
       r.2.map (fun c => (t.today, c)) ++ (runDailyTicks rest r.1).2)
    | .error _ => runDailyTicks rest ledger

/-- A subscribed user as seen by one tick of `send_daily_quote`. -/
structure QUser where
  chatId : Nat
  currentTime : String
deriving DecidableEq, Repr

/-- One tick of `send_daily_quote` (lines 275-301): returns early with
no users or no quote; otherwise each user receives the quote exactly
when their local `strftime('%H:%M')` equals `"08:00"` and the send does
not raise. There is no dedup state of any kind. -/
def send_daily_quote_tick (sendOk : Nat → Bool) (quoteAvailable : Bool)
    (users : List QUser) : List Nat :=
  if users = [] then []
  else if quoteAvailable then
    users.filterMap (fun u =>
      if u.currentTime = "08:00" ∧ sendOk u.chatId = true then some u.chatId else none)
  else []

/-- The inputs one `send_daily_quote` tick reads from the outside
world. -/
structure QuoteTickIn where
  date : String
  quoteAvailable : Bool
  sendOk : Nat → Bool
  users : List QUser

/-- A sequence of quote ticks; the job keeps no state between ticks. -/
def runQuoteTicks : List QuoteTickIn → List (String × Nat)
  | [] => []
  | t :: rest =>
    (send_daily_quote_tick t.sendOk t.quoteAvailable t.users).map (fun c => (t.date, c))
      ++ runQuoteTicks rest

/-- One entry of the global `cachetools.TTLCache` (line 69): the key,
the stored value and the insertion instant. Entries expire `ttl`
seconds after insertion; the capacity bound (`maxsize=100`) is not
modelled — the claims here concern only the TTL and storing
discipline. -/
structure CacheEntry (α : Type) where
  key : String
  value : α
  insertedAt : Nat
deriving DecidableEq, Repr

/-- `key in cache` / `cache[key]` on a `TTLCache`: an expired entry
behaves as absent. Insertion keeps at most one live entry per key, so
`find?` is unambiguous. -/
def cacheGet (ttl now : Nat) (c : List (CacheEntry α)) (k : String) : Option α :=
  match c.find? (fun e => e.key == k) with
  | some e => if now < e.insertedAt + ttl then some e.value else none
  | none => none

/-- `cache[key] = value` on a `TTLCache`: replaces any previous entry
for the key and stamps the insertion instant. -/
def cacheInsert (now : Nat) (c : List (CacheEntry α)) (k : String) (v : α) :
    List (CacheEntry α) :=
  ⟨k, v, now⟩ :: c.filter (fun e => e.key != k)

/-- The six prayer names, in the order `parse_prayer_times` builds its
schedule dict (line 66 and lines 166-173). -/
def PRAYER_NAMES : List String := ["Фаджр", "Шурук", "Зухр", "Аср", "Магриб", "Иша"]

/-- The row scan of `parse_prayer_times` (lines 163-165): the first row
with at least 8 cells whose first cell equals `str(date.day)`. -/
def findDayRow (day : Nat) : List (List String) → Option (List String)
  | [] => none
  | cols :: rest =>
    if 8 ≤ cols.length ∧ cols.headD "" = toString day then some cols
    else findDayRow day rest

/-- The schedule dict built from a matching row (lines 166-173). -/
def buildSchedule (cols : List String) : List (String × String) :=
  [("Фаджр", cols.getD 2 ""), ("Шурук", cols.getD 3 ""), ("Зухр", cols.getD 4 ""),
   ("Аср", cols.getD 5 ""), ("Магриб", cols.getD 6 ""), ("Иша", cols.getD 7 "")]

/-- `parse_prayer_times(city, date)` (lines 140-181). `fetched` stands
for the outside world: `none` when `fetch_url` returned `""` or the
schedule table is missing from the page (both return `{}` without
caching), `some rows` for the scraped table rows as cell texts. Returns
the schedule (`[]` for Python's `{}`), the cache after the call, and
whether the external fetch was invoked. -/
def parse_prayer_times (ttl now : Nat) (cache : List (CacheEntry (List (String × String))))
    (city dateStr : String) (day : Nat) (fetched : Option (List (List String))) :
    List (String × String) × List (CacheEntry (List (String × String))) × Bool :=
  match cacheGet ttl now cache (city ++ "_" ++ dateStr) with
  | some v => (v, cache, false)
  | none =>
    match fetched with
    | none => ([], cache, true)
    | some rows =>
      match findDayRow day rows with
      | some cols =>
        (buildSchedule cols,
         cacheInsert now cache (city ++ "_" ++ dateStr) (buildSchedule cols), true)
      | none => ([], cache, true)

/-- `get_daily_quote(quote_type)` (lines 184-208). `fetched` is `none`
when the page is empty, the quote block is missing, or extraction
raises (all return `{}` without caching), and `some text` for a
successfully extracted quote text. -/
def get_daily_quote (ttl now : Nat) (cache : List (CacheEntry String))
    (quoteType dateStr : String) (fetched : Option String) :
    Option String × List (CacheEntry String) × Bool :=
  match cacheGet ttl now cache (quoteType ++ "_" ++ dateStr) with
  | some v => (some v, cache, false)
  | none =>
    match fetched with
    | none => (none, cache, true)
    | some text => (some text, cacheInsert now cache (quoteType ++ "_" ++ dateStr) text, true)

/-- A row of the `subscribers` table. -/
structure Subscriber where
  chatId : Nat
  city : String
  timezone : String
  subscribed : Nat
deriving DecidableEq, Repr

/-- `SELECT ... WHERE chat_id = ?` on the primary-keyed table. -/
def dbGet (db : List Subscriber) (cid : Nat) : Option Subscriber :=
  db.find? (fun r => r.chatId == cid)

/-- `update_user` (lines 105-115): `INSERT OR REPLACE INTO subscribers
(chat_id, city, timezone, subscribed) VALUES (?, ?, ?, 1)` — whatever
row existed for the chat id is replaced with `subscribed = 1`. -/
def update_user (chatId : Nat) (city timezone : String) (db : List Subscriber) :
    List Subscriber :=
  ⟨chatId, city, timezone, 1⟩ :: db.filter (fun r => r.chatId != chatId)

/-- The `CITIES` table (lines 36-49). -/
def CITIES : List (String × String) :=
  [("Москва", "moscow"), ("Казань", "kazan"), ("Уфа", "ufa"),
   ("Санкт-Петербург", "sankt-peterburg"), ("Астана", "astana"),
   ("Алматы", "almaty"), ("Актау", "aktau"), ("Атырау", "atyrau"),
   ("Караганда", "karaganda"), ("Шымкент", "shymkent"),
   ("Костанай", "kostanay"), ("Уральск", "uralsk")]

/-- The `CITY_TIMEZONES` table (lines 51-64). -/
def CITY_TIMEZONES : List (String × String) :=
  [("moscow", "Europe/Moscow"), ("kazan", "Europe/Moscow"),
   ("ufa", "Asia/Yekaterinburg"), ("sankt-peterburg", "Europe/Moscow"),
   ("astana", "Asia/Almaty"), ("almaty", "Asia/Almaty"),
   ("aktau", "Asia/Aqtau"), ("atyrau", "Asia/Atyrau"),
   ("karaganda", "Asia/Almaty"), ("shymkent", "Asia/Almaty"),
   ("kostanay", "Asia/Qostanay"), ("uralsk", "Asia/Oral")]

/-- Python dict lookup on the two constant tables; `none` models
`KeyError`. -/
def lookupStr (m : List (String × String)) (k : String) : Option String :=
  (m.find? (fun p => p.1 == k)).map (·.2)

/-- The `set_city` callback (lines 401-409): the city name is
`query.data.split('_')[-1]`, looked up in `CITIES` and
`CITY_TIMEZONES`, then `update_user` is called — unconditionally with
`subscribed = 1`. -/
def set_city (callbackData : String) (chatId : Nat) (db : List Subscriber) :
    Option (List Subscriber) :=
  match lookupStr CITIES ((pySplit '_' callbackData).getLastD "") with
  | none => none
  | some cityCode =>
    match lookupStr CITY_TIMEZONES cityCode with
    | none => none
    | some tz => some (update_user chatId cityCode tz db)

theorem string_data_append (a b : String) : (a ++ b).data = a.data ++ b.data := rfl

/-- Two notification keys with the same date and chat id agree exactly
when their prayer components agree. -/
theorem notifKey_inj_prayer {d p q : String} {c : Nat}
    (h : notifKey d p c = notifKey d q c) : p = q := by
  have hd : (notifKey d p c).data = (notifKey d q c).data := congrArg String.data h
  simp only [notifKey, string_data_append, List.append_assoc] at hd
  have h1 := List.append_cancel_left hd
  have h2 := List.append_cancel_left h1
  exact String.ext (List.append_cancel_right h2)

/-- Every key added to the ledger during one user's prayer loop is the
key of a delivery made there: the ledger grows exactly by the keys of
the successful sends, newest first. -/
theorem processPrayers_ledger (sendOk : Nat → String → Bool) (u : PUser) :
    ∀ (prayers : List (String × String)) (ledger : List String),
    (processPrayers sendOk u prayers ledger).1
      = ((processPrayers sendOk u prayers ledger).2.map Sent.key).reverse ++ ledger := by
  intro prayers
  induction prayers with
  | nil => intro ledger; simp [processPrayers]
  | cons pt rest ih =>
    intro ledger
    obtain ⟨prayer, time⟩ := pt
    simp only [processPrayers]
    split
    · split_ifs with hdue hs
      · simp only [List.map_cons, List.reverse_cons, List.append_assoc, List.singleton_append]
        exact ih (notifKey u.today prayer u.chatId :: ledger)
      · simp
      · exact ih ledger
    · simp

/-- Deliveries only happen when the channel send succeeded. -/
theorem processPrayers_sendOk (sendOk : Nat → String → Bool) (u : PUser) :
    ∀ (prayers : List (String × String)) (ledger : List String),
    ∀ s ∈ (processPrayers sendOk u prayers ledger).2, sendOk s.chatId s.prayer = true := by
  intro prayers
  induction prayers with
  | nil => intro ledger s hs; simp [processPrayers] at hs
  | cons pt rest ih =>
    intro ledger s hs
    obtain ⟨prayer, time⟩ := pt
    simp only [processPrayers] at hs
    revert hs
    split
    · split_ifs with hdue hsend
      · intro hs
        rcases List.mem_cons.mp hs with h | h
        · subst h; exact hsend
        · exact ih _ s h
      · intro hs; simp at hs
      · exact ih ledger s
    · intro hs; simp at hs

theorem process_user_ledger (sendOk : Nat → String → Bool) (ledger : List String)
    (u : PUser) :
    (process_user sendOk ledger u).1
      = ((process_user sendOk ledger u).2.map Sent.key).reverse ++ ledger := by
  unfold process_user
  split
  · simp
  · exact processPrayers_ledger sendOk u u.schedule ledger

theorem process_user_sendOk (sendOk : Nat → String → Bool) (ledger : List String)
    (u : PUser) :
    ∀ s ∈ (process_user sendOk ledger u).2, sendOk s.chatId s.prayer = true := by
  unfold process_user
  split
  · intro s hs; simp at hs
  · exact processPrayers_sendOk sendOk u u.schedule ledger

/-- Over a whole tick, the ledger grows exactly by the keys of the
successful deliveries. -/
theorem processUsers_ledger (sendOk : Nat → String → Bool) :
    ∀ (users : List PUser) (ledger : List String),
    (processUsers sendOk users ledger).1
      = ((processUsers sendOk users ledger).2.map Sent.key).reverse ++ ledger := by
  intro users
  induction users with
  | nil => intro ledger; simp [processUsers]
  | cons u rest ih =>
    intro ledger
    simp only [processUsers, List.map_append, List.reverse_append, List.append_assoc]
    rw [ih, process_user_ledger]

theorem processUsers_sendOk (sendOk : Nat → String → Bool) :
    ∀ (users : List PUser) (ledger : List String),
    ∀ s ∈ (processUsers sendOk users ledger).2, sendOk s.chatId s.prayer = true := by
  intro users
  induction users with
  | nil => intro ledger s hs; simp [processUsers] at hs
  | cons u rest ih =>
    intro ledger s hs
    simp only [processUsers, List.mem_append] at hs
    rcases hs with h | h
    · exact process_user_sendOk sendOk ledger u s h
    · exact ih _ s h

/-- The user loop is compositional: the users after any split point are
processed from wherever the earlier users left the ledger, whatever
happened to the earlier users. -/
theorem processUsers_append (sendOk : Nat → String → Bool) :
    ∀ (us₁ us₂ : List PUser) (ledger : List String),
    processUsers sendOk (us₁ ++ us₂) ledger
      = ((processUsers sendOk us₂ (processUsers sendOk us₁ ledger).1).1,
         (processUsers sendOk us₁ ledger).2
           ++ (processUsers sendOk us₂ (processUsers sendOk us₁ ledger).1).2) := by
  intro us₁
  induction us₁ with
  | nil => intro us₂ ledger; simp [processUsers]
  | cons u rest ih =>
    intro us₂ ledger
    simp only [List.cons_append, processUsers, List.append_eq]
    rw [ih]
    simp [List.append_assoc]

/-- For a user whose times all parse and whose prayer names are
distinct, the prayer loop with a non-aborting channel delivers exactly
the minute-matching events, in schedule order. -/
theorem processPrayers_due (sendOk : Nat → String → Bool) (u : PUser) (cm : Nat)
    (hcur : timeToMinutes u.currentTime = some cm)
    (hsend : ∀ p, sendOk u.chatId p = true) :
    ∀ (prayers : List (String × String)) (ledger : List String),
    (∀ pt ∈ prayers, (timeToMinutes pt.2).isSome) →
    (∀ pt ∈ prayers, notifKey u.today pt.1 u.chatId ∉ ledger) →
    ((prayers.map Prod.fst).Nodup) →
    ((processPrayers sendOk u prayers ledger).2).map Sent.prayer
      = (prayers.filter (fun pt => timeToMinutes pt.2 == some cm)).map Prod.fst := by
  intro prayers
  induction prayers with
  | nil => intro ledger _ _ _; simp [processPrayers]
  | cons pt rest ih =>
    intro ledger hvalid hled hnodup
    obtain ⟨prayer, time⟩ := pt
    obtain ⟨pm, hpm⟩ :=
      Option.isSome_iff_exists.mp (hvalid (prayer, time) (List.mem_cons_self _ _))
    simp only [processPrayers, hpm, hcur]
    have hnodup' : (rest.map Prod.fst).Nodup := (List.nodup_cons.mp hnodup).2
    have hvalid' : ∀ pt ∈ rest, (timeToMinutes pt.2).isSome :=
      fun q hq => hvalid q (List.mem_cons_of_mem _ hq)
    by_cases heq : pm = cm
    · have hdue : (pm : Int) - (cm : Int) = 0 ∧ notifKey u.today prayer u.chatId ∉ ledger := by
        refine ⟨by omega, hled (prayer, time) (List.mem_cons_self _ _)⟩
      rw [if_pos hdue, if_pos (hsend prayer)]
      have hled' : ∀ q ∈ rest,
          notifKey u.today q.1 u.chatId ∉ notifKey u.today prayer u.chatId :: ledger := by
        intro q hq hmem
        rcases List.mem_cons.mp hmem with h1 | h1
        · have hq1 : q.1 = prayer := notifKey_inj_prayer h1
          have hm : prayer ∈ rest.map Prod.fst := by
            rw [← hq1]
            exact List.mem_map_of_mem Prod.fst hq
          exact (List.nodup_cons.mp hnodup).1 hm
        · exact hled q (List.mem_cons_of_mem _ hq) h1
      have hfilter :
          (fun pt : String × String => timeToMinutes pt.2 == some cm) (prayer, time)
            = true := by
        simp [hpm, heq]
      have hfc :
          List.filter (fun pt : String × String => timeToMinutes pt.2 == some cm)
              ((prayer, time) :: rest)
            = (prayer, time)
                :: List.filter (fun pt => timeToMinutes pt.2 == some cm) rest :=
        List.filter_cons_of_pos hfilter
      rw [hfc, List.map_cons, List.map_cons]
      exact congrArg (prayer :: ·) (ih _ hvalid' hled' hnodup')
    · have hdue : ¬((pm : Int) - (cm : Int) = 0 ∧ notifKey u.today prayer u.chatId ∉ ledger) := by
        intro hc
        exact heq (by omega)
      rw [if_neg hdue]
      have hfilter :
          ¬((fun pt : String × String => timeToMinutes pt.2 == some cm) (prayer, time)
            = true) := by
        simp [hpm, heq]
      have hfc :
          List.filter (fun pt : String × String => timeToMinutes pt.2 == some cm)
              ((prayer, time) :: rest)
            = List.filter (fun pt => timeToMinutes pt.2 == some cm) rest :=
        List.filter_cons_of_neg hfilter
      rw [hfc]
      exact ih ledger hvalid' (fun q hq => hled q (List.mem_cons_of_mem _ hq)) hnodup'

/-- C1: the claim says a second `check_prayer_times` pass in the same
minute finds the dedup key and sends nothing. In fact the prune of the
second pass takes `k.split('-')[0]` — only the year — so the key fails
the `YYYY-MM-DD` shape check, is discarded as "malformed", and the same
notification is delivered again: two identical deliveries for one due
event. -/
theorem check_prayer_times_double_send :
    (runCheckTicks (fun _ _ => true)
      [[⟨100, "2025-10-12", "04:37",
          [("Фаджр", "04:37"), ("Шурук", "06:11"), ("Зухр", "12:10"),
           ("Аср", "15:20"), ("Магриб", "18:05"), ("Иша", "19:45")]⟩],
       [⟨100, "2025-10-12", "04:37",
          [("Фаджр", "04:37"), ("Шурук", "06:11"), ("Зухр", "12:10"),
           ("Аср", "15:20"), ("Магриб", "18:05"), ("Иша", "19:45")]⟩]] []).2
      = [⟨100, "Фаджр", "2025-10-12-Фаджр-100"⟩,
         ⟨100, "Фаджр", "2025-10-12-Фаджр-100"⟩] := by
  rfl

/-- C2: the claim says pruning keeps every key from the same day and
removes only keys more than one day old. In fact the
`check_prayer_times` prune drops a key inserted the same day (it drops
every key), and the `send_daily_prayer_schedule` prune raises an
uncaught `ValueError` on its own well-formed key instead of pruning at
all. -/
theorem prune_drops_same_day_key :
    pruneNotifications ["2025-10-12-Фаджр-100"] = .ok []
      ∧ pruneDailySchedules ["2025-10-12-100"]
          = .error "ValueError: time data does not match format" := by
  exact ⟨rfl, rfl⟩

/-- C5: for a schedule of valid 24-hour event times with distinct names
and a channel that does not abort, the events delivered by the
`check_prayer_times` inner loop (from a fresh ledger) are exactly those
whose minute-of-day `60*h + m` equals the current minute-of-day. -/
theorem due_events_minute_match (sendOk : Nat → String → Bool) (u : PUser) (cm : Nat)
    (hcur : timeToMinutes u.currentTime = some cm)
    (hsend : ∀ p, sendOk u.chatId p = true)
    (hvalid : ∀ pt ∈ u.schedule,
      ∃ hh mm, hh < 24 ∧ mm < 60 ∧ timeToMinutes pt.2 = some (60 * hh + mm))
    (hnodup : (u.schedule.map Prod.fst).Nodup) :
    ((process_user sendOk [] u).2).map Sent.prayer
      = (u.schedule.filter (fun pt => timeToMinutes pt.2 == some cm)).map Prod.fst := by
  unfold process_user
  split
  · rename_i hempty
    simp [hempty]
  · refine processPrayers_due sendOk u cm hcur hsend u.schedule [] ?_ (by simp) hnodup
    intro pt hpt
    obtain ⟨hh, mm, _, _, h⟩ := hvalid pt hpt
    simp [h]

/-- Witness for C5 at the six-event schedule of the scenario in the
spec, current local time 04:37: exactly the Fajr event is delivered. -/
theorem due_events_minute_match_witness :
    ((process_user (fun _ _ => true) []
        ⟨100, "2025-10-12", "04:37",
          [("Фаджр", "04:37"), ("Шурук", "06:11"), ("Зухр", "12:10"),
           ("Аср", "15:20"), ("Магриб", "18:05"), ("Иша", "19:45")]⟩).2).map Sent.prayer
      = ([("Фаджр", "04:37"), ("Шурук", "06:11"), ("Зухр", "12:10"),
          ("Аср", "15:20"), ("Магриб", "18:05"),
          ("Иша", "19:45")].filter
            (fun pt => timeToMinutes pt.2 == some 277)).map Prod.fst := by
  refine due_events_minute_match (fun _ _ => true)
    ⟨100, "2025-10-12", "04:37",
      [("Фаджр", "04:37"), ("Шурук", "06:11"), ("Зухр", "12:10"),
       ("Аср", "15:20"), ("Магриб", "18:05"), ("Иша", "19:45")]⟩ 277 (by rfl)
    (fun _ => rfl) ?_ (by decide)
  intro pt hpt
  fin_cases hpt
  · exact ⟨4, 37, by omega, by omega, by rfl⟩
  · exact ⟨6, 11, by omega, by omega, by rfl⟩
  · exact ⟨12, 10, by omega, by omega, by rfl⟩
  · exact ⟨15, 20, by omega, by omega, by rfl⟩
  · exact ⟨18, 5, by omega, by omega, by rfl⟩
  · exact ⟨19, 45, by omega, by omega, by rfl⟩

/-- C8: in a `check_prayer_times` tick, every delivered item had a
successful channel send; the ledger after the tick is the pruned ledger
plus exactly the keys of the successful deliveries (so a failed send
leaves its key unmarked, available for retry); and the user loop is
compositional, so a failure in one user's block never prevents later
users from being processed. -/
theorem delivery_failure_isolated (sendOk : Nat → String → Bool) (users : List PUser)
    (ledger l' : List String) (sends : List Sent) (hne : users ≠ [])
    (h : check_prayer_tick sendOk users ledger = .ok (l', sends)) :
    (∀ s ∈ sends, sendOk s.chatId s.prayer = true) ∧
    (∃ pruned, pruneNotifications ledger = .ok pruned
      ∧ l' = (sends.map Sent.key).reverse ++ pruned) ∧
    (∀ (us₁ us₂ : List PUser) (l₀ : List String),
      processUsers sendOk (us₁ ++ us₂) l₀
        = ((processUsers sendOk us₂ (processUsers sendOk us₁ l₀).1).1,
           (processUsers sendOk us₁ l₀).2
             ++ (processUsers sendOk us₂ (processUsers sendOk us₁ l₀).1).2)) := by
  unfold check_prayer_tick at h
  rw [if_neg hne, pruneNotifications_eq] at h
  simp only [Except.ok.injEq] at h
  have h1 : l' = (processUsers sendOk users []).1 := by rw [h]
  have h2 : sends = (processUsers sendOk users []).2 := by rw [h]
  refine ⟨?_, ⟨[], pruneNotifications_eq ledger, ?_⟩, processUsers_append sendOk⟩
  · intro s hs
    exact processUsers_sendOk sendOk users [] s (h2 ▸ hs)
  · rw [h1, h2, processUsers_ledger]

/-- Witness for C8: first user's send raises, second user's send
succeeds; the failed send is not delivered and not marked, the second
user is still served, and its key is the only ledger addition. -/
theorem delivery_failure_isolated_witness :
    ∃ pruned, pruneNotifications ["2025-01-01-Иша-9"] = .ok pruned
      ∧ ["2025-10-12-Фаджр-2"]
          = (([⟨2, "Фаджр", "2025-10-12-Фаджр-2"⟩] : List Sent).map Sent.key).reverse
              ++ pruned :=
  (delivery_failure_isolated (fun cid _ => cid != 1)
    [⟨1, "2025-10-12", "04:37", [("Фаджр", "04:37")]⟩,
     ⟨2, "2025-10-12", "04:37", [("Фаджр", "04:37")]⟩]
    ["2025-01-01-Иша-9"] ["2025-10-12-Фаджр-2"]
    [⟨2, "Фаджр", "2025-10-12-Фаджр-2"⟩] (by simp) (by rfl)).2.1

/-- One digest-loop user either changes nothing or delivers once and
marks their own digest key. -/
theorem processDigestUser_cases (sendOk : Nat → Bool) (today : String)
    (ledger : List String) (u : DUser) :
    processDigestUser sendOk today ledger u = (ledger, [])
      ∨ processDigestUser sendOk today ledger u
          = (digestKey today u.chatId :: ledger, [u.chatId]) := by
  unfold processDigestUser
  split
  · exact Or.inl rfl
  · split
    · exact Or.inl rfl
    · split
      · exact Or.inl rfl
      · split
        · split_ifs
          · exact Or.inr rfl
          · exact Or.inl rfl
          · exact Or.inl rfl
        · exact Or.inl rfl

/-- The digest loop grows the ledger exactly by the digest keys of the
chat ids it served. -/
theorem processDigestUsers_ledger (sendOk : Nat → Bool) (today : String) :
    ∀ (users : List DUser) (ledger : List String),
    (processDigestUsers sendOk today users ledger).1
      = ((processDigestUsers sendOk today users ledger).2.map (digestKey today)).reverse
          ++ ledger := by
  intro users
  induction users with
  | nil => intro ledger; simp [processDigestUsers]
  | cons u rest ih =>
    intro ledger
    simp only [processDigestUsers, List.map_append, List.reverse_append, List.append_assoc]
    rcases processDigestUser_cases sendOk today ledger u with h | h
    · rw [h, ih]
      simp
    · rw [h, ih]
      simp

/-- Within one tick, the served chat ids form a sublist of the users'
chat ids. -/
theorem processDigestUsers_sublist (sendOk : Nat → Bool) (today : String) :
    ∀ (users : List DUser) (ledger : List String),
    (processDigestUsers sendOk today users ledger).2.Sublist (users.map DUser.chatId) := by
  intro users
  induction users with
  | nil => intro ledger; simp [processDigestUsers]
  | cons u rest ih =>
    intro ledger
    simp only [processDigestUsers, List.map_cons]
    rcases processDigestUser_cases sendOk today ledger u with h | h <;> rw [h]
    · exact List.Sublist.cons _ (ih _)
    · exact List.Sublist.cons₂ _ (ih _)

/-- Once `sent_daily_schedules` is non-empty, every further
`send_daily_prayer_schedule` tick dies in its prune: the ledger never
changes again and nothing is ever sent again. -/
theorem runDailyTicks_stuck :
    ∀ (ticks : List DailyTickIn) (ledger : List String), ledger ≠ [] →
    runDailyTicks ticks ledger = (ledger, []) := by
  intro ticks
  induction ticks with
  | nil => intro ledger _; rfl
  | cons t rest ih =>
    intro ledger hl
    simp only [runDailyTicks]
    unfold daily_schedule_tick
    by_cases hu : t.users = []
    · rw [if_pos hu]
      simp only []
      rw [ih ledger hl]
      simp
    · rw [if_neg hu]
      match ledger, hl with
      | k :: r, _ =>
        obtain ⟨e, he⟩ := pruneDailySchedules_error k r
        rw [he]
        exact ih (k :: r) (by simp)

/-- A digest tick started from the empty ledger runs its user loop from
the empty (pruned) ledger. -/
theorem daily_schedule_tick_empty (sendOk : Nat → Bool) (today : String)
    (users : List DUser) :
    daily_schedule_tick sendOk today users []
      = .ok (processDigestUsers sendOk today users []) := by
  unfold daily_schedule_tick
  by_cases hu : users = []
  · rw [if_pos hu, hu]
    rfl
  · rw [if_neg hu]
    rfl

/-- C6: (a) with Fajr present and both times parsed, a
`send_daily_prayer_schedule` user receives the digest exactly when
`fajr_minutes - current_minutes == 10` (the first event of the day,
Fajr, referenced with a 10-minute lead); (b) over any sequence of
digest ticks from process start, no `(date, chat_id)` pair is ever
served twice. -/
theorem digest_due_and_at_most_once :
    (∀ (sendOk : Nat → Bool) (today : String) (ledger : List String) (u : DUser)
        (ft : String) (fm cm : Nat),
      dictGet u.schedule "Фаджр" = some ft →
      timeToMinutes ft = some fm →
      timeToMinutes u.currentTime = some cm →
      digestKey today u.chatId ∉ ledger →
      sendOk u.chatId = true →
      (processDigestUser sendOk today ledger u).2
        = (if (fm : Int) - (cm : Int) = 10 then [u.chatId] else [])) ∧
    (∀ ticks : List DailyTickIn,
      (∀ t ∈ ticks, (t.users.map DUser.chatId).Nodup) →
      ((runDailyTicks ticks []).2).Nodup) := by
  constructor
  · intro sendOk today ledger u ft fm cm hft hfm hcm hled hsend
    unfold processDigestUser
    split
    · rename_i hempty
      rw [hempty] at hft
      simp [dictGet] at hft
    · rename_i hne
      rw [hft]
      simp only []
      split
      · rename_i hft0
        rw [hft0] at hfm
        rw [show timeToMinutes "" = none from rfl] at hfm
        cases hfm
      · rw [hfm, hcm]
        simp only []
        by_cases hdiff : (fm : Int) - (cm : Int) = 10
        · simp [hdiff, hled, hsend]
        · simp [hdiff]
  · intro ticks h
    induction ticks with
    | nil => simp [runDailyTicks]
    | cons t rest ih =>
      have hhead := h t (List.mem_cons_self _ _)
      have htail : ∀ t' ∈ rest, (t'.users.map DUser.chatId).Nodup :=
        fun t' ht' => h t' (List.mem_cons_of_mem _ ht')
      simp only [runDailyTicks, daily_schedule_tick_empty]
      by_cases hs : (processDigestUsers t.sendOk t.today t.users []).2 = []
      · have hl1 : (processDigestUsers t.sendOk t.today t.users []).1 = [] := by
          rw [processDigestUsers_ledger, hs]
          rfl
        rw [hs, hl1]
        simpa using ih htail
      · have hl1 : (processDigestUsers t.sendOk t.today t.users []).1 ≠ [] := by
          rw [processDigestUsers_ledger]
          simp [hs]
        rw [runDailyTicks_stuck rest _ hl1]
        simp only [List.append_nil]
        have hnd : (processDigestUsers t.sendOk t.today t.users []).2.Nodup :=
          (processDigestUsers_sublist t.sendOk t.today t.users []).nodup hhead
        exact hnd.map (fun a b hab => by simpa using hab)

/-- Witness for C6 at the spec's scenario: first event 05:00, tick at
local 04:50 (lead 10 minutes) — the digest is delivered; and a concrete
one-tick run has duplicate-free `(date, chat_id)` deliveries. -/
theorem digest_due_and_at_most_once_witness :
    (processDigestUser (fun _ => true) "2025-10-12" []
        ⟨100, "04:50", [("Фаджр", "05:00")]⟩).2
      = (if (300 : Int) - (290 : Int) = 10 then [100] else []) ∧
    ((runDailyTicks
        [⟨"2025-10-12", fun _ => true, [⟨100, "04:50", [("Фаджр", "05:00")]⟩]⟩] []).2).Nodup := by
  constructor
  · exact digest_due_and_at_most_once.1 (fun _ => true) "2025-10-12" []
      ⟨100, "04:50", [("Фаджр", "05:00")]⟩ "05:00" 300 290 rfl rfl rfl (by simp) rfl
  · refine digest_due_and_at_most_once.2
      [⟨"2025-10-12", fun _ => true, [⟨100, "04:50", [("Фаджр", "05:00")]⟩]⟩] ?_
    intro t ht
    rw [List.mem_singleton] at ht
    subst ht
    simp

/-- C3 counterexample: the claim says the 08:00 daily quote fires at
most once per day within a process lifetime even if the poll evaluates
the same 08:00 minute twice. `send_daily_quote` keeps no dedup state,
so two ticks inside the 08:00 minute deliver the quote twice to the
same subscriber on the same date. -/
theorem daily_quote_double_send :
    runQuoteTicks
      [⟨"2025-10-12", true, fun _ => true, [⟨100, "08:00"⟩]⟩,
       ⟨"2025-10-12", true, fun _ => true, [⟨100, "08:00"⟩]⟩]
      = [("2025-10-12", 100), ("2025-10-12", 100)] := by
  rfl

/-- C3 amended: a subscriber receives the daily quote on exactly those
ticks where the quote is available, the subscriber's local time formats
to "08:00", and the send succeeds; and the job is stateless across
ticks, so nothing prevents a second delivery in the same minute. -/
theorem daily_quote_fires_every_matching_tick :
    (∀ (sendOk : Nat → Bool) (qa : Bool) (users : List QUser) (u : QUser),
      u ∈ users → (users.map QUser.chatId).Nodup →
      (u.chatId ∈ send_daily_quote_tick sendOk qa users
        ↔ qa = true ∧ u.currentTime = "08:00" ∧ sendOk u.chatId = true)) ∧
    (∀ (t : QuoteTickIn) (rest : List QuoteTickIn),
      runQuoteTicks (t :: rest)
        = (send_daily_quote_tick t.sendOk t.quoteAvailable t.users).map
            (fun c => (t.date, c)) ++ runQuoteTicks rest) := by
  constructor
  · intro sendOk qa users u hu hnodup
    have hne : users ≠ [] := by rintro rfl; simp at hu
    unfold send_daily_quote_tick
    rw [if_neg hne]
    by_cases hqa : qa = true
    · rw [if_pos hqa]
      simp only [List.mem_filterMap]
      constructor
      · rintro ⟨w, hw, hwe⟩
        by_cases hc : w.currentTime = "08:00" ∧ sendOk w.chatId = true
        · rw [if_pos hc] at hwe
          have hid : w.chatId = u.chatId := by
            simpa using hwe
          have hwu : w = u := List.inj_on_of_nodup_map hnodup hw hu hid
          exact ⟨hqa, hwu ▸ hc.1, hwu ▸ hc.2⟩
        · rw [if_neg hc] at hwe
          cases hwe
      · rintro ⟨_, ht, hs⟩
        exact ⟨u, hu, by rw [if_pos ⟨ht, hs⟩]⟩
    · rw [if_neg hqa]
      simp only [List.not_mem_nil, false_iff]
      rintro ⟨hqa', _, _⟩
      exact hqa hqa'
  · intro t rest
    rfl

/-- Witness for C3's amended statement: one subscriber at local 08:00,
quote available, send succeeding — the quote is delivered on that
tick. -/
theorem daily_quote_fires_every_matching_tick_witness :
    100 ∈ send_daily_quote_tick (fun _ => true) true [⟨100, "08:00"⟩]
      ↔ true = true ∧ ("08:00" : String) = "08:00" ∧ true = true :=
  daily_quote_fires_every_matching_tick.1 (fun _ => true) true
    [⟨100, "08:00"⟩] ⟨100, "08:00"⟩ (by simp) (by simp)

/-- C4 counterexample: the claim says a dedup key that does not parse
into a date is dropped, logged and never fatal in either notification
job. In `send_daily_prayer_schedule` (non-empty user list) the prune
raises an uncaught `ValueError` on such a key, killing the whole
tick. -/
theorem daily_prune_raises_on_malformed_key :
    daily_schedule_tick (fun _ => true) "2025-10-12"
        [⟨100, "04:50", [("Фаджр", "05:00")]⟩] ["not-a-date"]
      = .error "ValueError: time data does not match format" := by
  rfl

/-- C4 amended: in `check_prayer_times` a key whose extracted date part
does not parse is dropped during pruning and pruning never raises; in
`send_daily_prayer_schedule` a ledger containing such a key makes the
prune raise out of the tick. -/
theorem malformed_key_handling_amended :
    (∀ ledger : List String, ∃ l', pruneNotifications ledger = .ok l'
      ∧ ∀ k ∈ ledger, parseYMD ((pySplit '-' k).headD "") = none → k ∉ l') ∧
    (∀ (ledger : List String) (k : String), k ∈ ledger →
      parseYMD ((pySplit '-' k).headD "") = none →
      ∃ e, pruneDailySchedules ledger = .error e) := by
  constructor
  · intro ledger
    refine ⟨[], pruneNotifications_eq ledger, ?_⟩
    intro k _ _
    simp
  · intro ledger k hk _
    cases ledger with
    | nil => simp at hk
    | cons k0 rest => exact pruneDailySchedules_error k0 rest

/-- Witness for C4's amended statement at the malformed key
`"garbage"`. -/
theorem malformed_key_handling_amended_witness :
    (∃ l', pruneNotifications ["garbage"] = .ok l' ∧ "garbage" ∉ l') ∧
    (∃ e, pruneDailySchedules ["garbage"] = .error e) := by
  constructor
  · obtain ⟨l', h1, h2⟩ := malformed_key_handling_amended.1 ["garbage"]
    exact ⟨l', h1, h2 "garbage" (by simp) (by rfl)⟩
  · exact malformed_key_handling_amended.2 ["garbage"] "garbage" (by simp) (by rfl)

/-- A cache hit names a stored entry. -/
theorem cacheGet_mem {α : Type} (ttl now : Nat) (c : List (CacheEntry α)) (k : String)
    (v : α) (h : cacheGet ttl now c k = some v) : ∃ e ∈ c, e.value = v := by
  unfold cacheGet at h
  cases hf : c.find? (fun e => e.key == k) with
  | none => rw [hf] at h; cases h
  | some e =>
    rw [hf] at h
    dsimp only at h
    split_ifs at h with httl
    exact ⟨e, List.mem_of_find?_eq_some hf, by simpa using h⟩

/-- C7: a hit within TTL returns the cached value without invoking the
external fetch; a fetch pass that stored a non-empty result is served
from the cache, fetch-free and unchanged, for any later instant within
TTL; and a pass whose result is empty leaves the cache unchanged — an
empty result is never stored. Both for `parse_prayer_times` and for
`get_daily_quote`. -/
theorem cache_hit_and_no_empty_store :
    (∀ (ttl now : Nat) (c : List (CacheEntry (List (String × String))))
        (city dateStr : String) (day : Nat) (fetched : Option (List (List String)))
        (v : List (String × String)),
      cacheGet ttl now c (city ++ "_" ++ dateStr) = some v →
      parse_prayer_times ttl now c city dateStr day fetched = (v, c, false)) ∧
    (∀ (ttl t0 d : Nat) (c : List (CacheEntry (List (String × String))))
        (city dateStr : String) (day : Nat) (fetched : Option (List (List String)))
        (r : List (String × String)) (c' : List (CacheEntry (List (String × String)))),
      parse_prayer_times ttl t0 c city dateStr day fetched = (r, c', true) →
      r ≠ [] → d < ttl →
      ∀ fetched', parse_prayer_times ttl (t0 + d) c' city dateStr day fetched'
        = (r, c', false)) ∧
    (∀ (ttl now : Nat) (c : List (CacheEntry (List (String × String))))
        (city dateStr : String) (day : Nat) (fetched : Option (List (List String))),
      (parse_prayer_times ttl now c city dateStr day fetched).1 = [] →
      (parse_prayer_times ttl now c city dateStr day fetched).2.1 = c) ∧
    (∀ (ttl now : Nat) (c : List (CacheEntry String)) (quoteType dateStr : String)
        (fetched : Option String) (v : String),
      cacheGet ttl now c (quoteType ++ "_" ++ dateStr) = some v →
      get_daily_quote ttl now c quoteType dateStr fetched = (some v, c, false)) ∧
    (∀ (ttl t0 d : Nat) (c : List (CacheEntry String)) (quoteType dateStr : String)
        (fetched : Option String) (v : String) (c' : List (CacheEntry String)),
      get_daily_quote ttl t0 c quoteType dateStr fetched = (some v, c', true) →
      d < ttl →
      ∀ fetched', get_daily_quote ttl (t0 + d) c' quoteType dateStr fetched'
        = (some v, c', false)) ∧
    (∀ (ttl now : Nat) (c : List (CacheEntry String)) (quoteType dateStr : String)
        (fetched : Option String),
      (get_daily_quote ttl now c quoteType dateStr fetched).1 = none →
      (get_daily_quote ttl now c quoteType dateStr fetched).2.1 = c) := by
  refine ⟨?_, ?_, ?_, ?_, ?_, ?_⟩
  · intro ttl now c city dateStr day fetched v hget
    simp [parse_prayer_times, hget]
  · intro ttl t0 d c city dateStr day fetched r c' h hr httl fetched'
    unfold parse_prayer_times at h
    cases hget : cacheGet ttl t0 c (city ++ "_" ++ dateStr) with
    | some v => rw [hget] at h; simp at h
    | none =>
      rw [hget] at h
      cases fetched with
      | none =>
        simp only [Prod.mk.injEq] at h
        exact absurd h.1.symm hr
      | some rows =>
        cases hrow : findDayRow day rows with
        | none =>
          simp only [hrow, Prod.mk.injEq] at h
          exact absurd h.1.symm hr
        | some cols =>
          simp only [hrow, Prod.mk.injEq, and_true] at h
          obtain ⟨hr1, hc1⟩ := h
          subst hr1
          subst hc1
          have hget2 : cacheGet ttl (t0 + d)
              (cacheInsert t0 c (city ++ "_" ++ dateStr) (buildSchedule cols))
              (city ++ "_" ++ dateStr) = some (buildSchedule cols) := by
            unfold cacheGet cacheInsert
            simp only [List.find?_cons, beq_self_eq_true]
            rw [if_pos (by omega)]
          simp [parse_prayer_times, hget2]
  · intro ttl now c city dateStr day fetched
    cases hget : cacheGet ttl now c (city ++ "_" ++ dateStr) with
    | some v => simp [parse_prayer_times, hget]
    | none =>
      cases fetched with
      | none => simp [parse_prayer_times, hget]
      | some rows =>
        cases hrow : findDayRow day rows with
        | none => simp [parse_prayer_times, hget, hrow]
        | some cols =>
          intro h1
          simp [parse_prayer_times, hget, hrow, buildSchedule] at h1
  · intro ttl now c quoteType dateStr fetched v hget
    simp [get_daily_quote, hget]
  · intro ttl t0 d c quoteType dateStr fetched v c' h httl fetched'
    unfold get_daily_quote at h
    cases hget : cacheGet ttl t0 c (quoteType ++ "_" ++ dateStr) with
    | some w => rw [hget] at h; simp at h
    | none =>
      rw [hget] at h
      cases fetched with
      | none => simp at h
      | some text =>
        simp only [Prod.mk.injEq, Option.some.injEq, and_true] at h
        obtain ⟨hv, hc1⟩ := h
        subst hv
        subst hc1
        have hget2 : cacheGet ttl (t0 + d)
            (cacheInsert t0 c (quoteType ++ "_" ++ dateStr) text)
            (quoteType ++ "_" ++ dateStr) = some text := by
          unfold cacheGet cacheInsert
          simp only [List.find?_cons, beq_self_eq_true]
          rw [if_pos (by omega)]
        simp [get_daily_quote, hget2]
  · intro ttl now c quoteType dateStr fetched
    cases hget : cacheGet ttl now c (quoteType ++ "_" ++ dateStr) with
    | some v => simp [get_daily_quote, hget]
    | none =>
      cases fetched with
      | none => simp [get_daily_quote, hget]
      | some text => simp [get_daily_quote, hget]

/-- Witness for C7: a fetch pass at instant 0 stores the parsed
schedule; a pass 10 seconds later (TTL 3600) returns it from the cache
with no fetch and no cache change. -/
theorem cache_hit_and_no_empty_store_witness :
    parse_prayer_times 3600 (0 + 10)
        [⟨"moscow_2025-10-12",
          [("Фаджр", "04:37"), ("Шурук", "06:11"), ("Зухр", "12:10"),
           ("Аср", "15:20"), ("Магриб", "18:05"), ("Иша", "19:45")], 0⟩]
        "moscow" "2025-10-12" 12 none
      = ([("Фаджр", "04:37"), ("Шурук", "06:11"), ("Зухр", "12:10"),
          ("Аср", "15:20"), ("Магриб", "18:05"), ("Иша", "19:45")],
         [⟨"moscow_2025-10-12",
           [("Фаджр", "04:37"), ("Шурук", "06:11"), ("Зухр", "12:10"),
            ("Аср", "15:20"), ("Магриб", "18:05"), ("Иша", "19:45")], 0⟩],
         false) :=
  cache_hit_and_no_empty_store.2.1 3600 0 10 [] "moscow" "2025-10-12" 12
    (some [["12", "x", "04:37", "06:11", "12:10", "15:20", "18:05", "19:45"]])
    [("Фаджр", "04:37"), ("Шурук", "06:11"), ("Зухр", "12:10"),
     ("Аср", "15:20"), ("Магриб", "18:05"), ("Иша", "19:45")]
    [⟨"moscow_2025-10-12",
      [("Фаджр", "04:37"), ("Шурук", "06:11"), ("Зухр", "12:10"),
       ("Аср", "15:20"), ("Магриб", "18:05"), ("Иша", "19:45")], 0⟩]
    (by rfl) (by simp) (by omega) none

/-- Definition following the spec's words (§3, Event Schedule
invariant): "a valid 24-hour time" — an `HH:MM` string whose hour is
below 24 and minute below 60. The parser itself never checks this; the
definition exists to compare the spec's invariant against what the code
returns. -/
def validTime24 (s : String) : Bool :=
  match pySplit ':' s with
  | [hs, ms] =>
    match parseDigits hs, parseDigits ms with
    | some h, some m => decide (h < 24 ∧ m < 60)
    | _, _ => false
  | _ => false

/-- The all-or-nothing shape the spec claims for schedules: empty, or
exactly the six named events in order. -/
def schedule_inv (v : List (String × String)) : Prop :=
  v = [] ∨ v.map Prod.fst = PRAYER_NAMES

/-- C9 counterexample: the claim says every non-empty parsed schedule
maps each of the six events to a valid 24-hour time. The parser copies
the row's cell texts verbatim: a matching row whose Fajr cell is "zz"
yields a schedule carrying "zz", which is not a valid 24-hour time. -/
theorem schedule_value_not_validated :
    ("Фаджр", "zz") ∈ (parse_prayer_times 3600 0 [] "moscow" "2025-10-12" 12
        (some [["12", "x", "zz", "03:00", "04:00", "05:00", "06:00", "07:00"]])).1
      ∧ validTime24 "zz" = false := by
  exact ⟨by decide, by rfl⟩

/-- C9 amended: every schedule `parse_prayer_times` returns (given a
cache whose entries already satisfy the invariant) is either empty —
and then the notification loop skips the subscriber — or carries
exactly the six named prayer events in order, with the row's raw texts
as values; a partial schedule is never produced, but the values are not
validated as clock times. -/
theorem schedule_all_or_nothing (ttl now : Nat)
    (c : List (CacheEntry (List (String × String)))) (city dateStr : String) (day : Nat)
    (fetched : Option (List (List String)))
    (hc : ∀ e ∈ c, schedule_inv e.value) :
    schedule_inv (parse_prayer_times ttl now c city dateStr day fetched).1 ∧
    (∀ e ∈ (parse_prayer_times ttl now c city dateStr day fetched).2.1,
      schedule_inv e.value) ∧
    (∀ (sendOk : Nat → String → Bool) (ledger : List String) (u : PUser),
      u.schedule = [] → process_user sendOk ledger u = (ledger, [])) := by
  refine ⟨?_, ?_, ?_⟩
  · cases hget : cacheGet ttl now c (city ++ "_" ++ dateStr) with
    | some v =>
      obtain ⟨e, he, hev⟩ := cacheGet_mem ttl now c _ v hget
      simp only [parse_prayer_times, hget]
      exact hev ▸ hc e he
    | none =>
      cases fetched with
      | none => simp [parse_prayer_times, hget, schedule_inv]
      | some rows =>
        cases hrow : findDayRow day rows with
        | none => simp [parse_prayer_times, hget, hrow, schedule_inv]
        | some cols =>
          simp only [parse_prayer_times, hget, hrow]
          exact Or.inr rfl
  · intro e he
    revert he
    cases hget : cacheGet ttl now c (city ++ "_" ++ dateStr) with
    | some v =>
      simp only [parse_prayer_times, hget]
      exact fun he => hc e he
    | none =>
      cases fetched with
      | none =>
        simp only [parse_prayer_times, hget]
        exact fun he => hc e he
      | some rows =>
        cases hrow : findDayRow day rows with
        | none =>
          simp only [parse_prayer_times, hget, hrow]
          exact fun he => hc e he
        | some cols =>
          simp only [parse_prayer_times, hget, hrow, cacheInsert]
          intro he
          rcases List.mem_cons.mp he with h1 | h1
          · rw [h1]
            exact Or.inr rfl
          · exact hc e (List.mem_of_mem_filter h1)
  · intro sendOk ledger u hu
    unfold process_user
    rw [if_pos hu]

/-- Witness for C9's amended statement on a fresh cache and a matching
row. -/
theorem schedule_all_or_nothing_witness :
    schedule_inv (parse_prayer_times 3600 0 [] "moscow" "2025-10-12" 12
        (some [["12", "x", "zz", "03:00", "04:00", "05:00", "06:00", "07:00"]])).1 ∧
    (∀ e ∈ (parse_prayer_times 3600 0 [] "moscow" "2025-10-12" 12
        (some [["12", "x", "zz", "03:00", "04:00", "05:00", "06:00", "07:00"]])).2.1,
      schedule_inv e.value) ∧
    (∀ (sendOk : Nat → String → Bool) (ledger : List String) (u : PUser),
      u.schedule = [] → process_user sendOk ledger u = (ledger, [])) :=
  schedule_all_or_nothing 3600 0 [] "moscow" "2025-10-12" 12
    (some [["12", "x", "zz", "03:00", "04:00", "05:00", "06:00", "07:00"]])
    (by intro e he; simp at he)

/-- C10: choosing a city stores the subscriber row with
`subscribed = 1` whatever the row held before — an unsubscribed user is
silently re-subscribed by `set_city` → `update_user`. -/
theorem set_city_forces_subscribed (callbackData : String) (chatId : Nat)
    (db db' : List Subscriber) (h : set_city callbackData chatId db = some db') :
    ∃ r, dbGet db' chatId = some r ∧ r.subscribed = 1 := by
  unfold set_city at h
  cases h1 : lookupStr CITIES ((pySplit '_' callbackData).getLastD "") with
  | none => rw [h1] at h; cases h
  | some code =>
    rw [h1] at h
    dsimp only at h
    cases h2 : lookupStr CITY_TIMEZONES code with
    | none => rw [h2] at h; cases h
    | some tz =>
      rw [h2] at h
      dsimp only at h
      have hdb : db' = update_user chatId code tz db := by
        injection h with h'
        exact h'.symm
      subst hdb
      refine ⟨⟨chatId, code, tz, 1⟩, ?_, rfl⟩
      simp [dbGet, update_user]

/-- Witness for C10: a user with `subscribed = 0` picks Казань and ends
up stored with `subscribed = 1`. -/
theorem set_city_forces_subscribed_witness :
    ∃ r, dbGet [(⟨7, "kazan", "Europe/Moscow", 1⟩ : Subscriber)] 7 = some r
      ∧ r.subscribed = 1 :=
  set_city_forces_subscribed "set_city_Казань" 7
    [⟨7, "kazan", "Europe/Moscow", 0⟩] [⟨7, "kazan", "Europe/Moscow", 1⟩] (by rfl)

end BotUmma
